import Mathlib

/-!
Verification of the column-scoped feature-transformation pipeline used by the
two notebooks of this repository (regression on house prices, classification
on Titanic survival).

The notebooks contain two genuine source functions — the cabin mixed-variable
extraction and `elapsed_years` — plus the pipeline configurations
(`titanic_pipe`, `house_pipe`).  The transformer stages themselves
(AddMissingIndicator, MeanMedianImputer, CategoricalImputer, RareLabelEncoder,
OrdinalEncoder, EqualFrequencyDiscretiser) are library calls whose code is not
part of this repository; they are modelled here from the specification's
per-stage contracts and marked as such in their doc comments.

Datasets are ordered lists of named columns; a cell is either a numeric value
(a rational), a categorical value (a string), or missing (`none`).
-/

/-- A non-missing cell value: numeric or categorical. -/
inductive Value where
  | num (q : ℚ)
  | cat (s : String)
deriving DecidableEq, Repr

/-- A cell of a column: `none` is the missing marker (NaN / absent). -/
abbrev Cell := Option Value

/-- A column is a list of cells (one per row). -/
abbrev Column := List Cell

/-- A dataset: ordered collection of named columns. -/
abbrev Dataset := List (String × Column)

/-- The column names of a dataset, in order. -/
def colNames (d : Dataset) : List String := d.map (·.1)

/-- Look up a column by name (empty column when absent; presence is checked
separately by the pipeline's configuration check). -/
def getCol (d : Dataset) (v : String) : Column :=
  ((d.find? (fun p => p.1 == v)).map (·.2)).getD []

/-- Replace the cells of the column named `v` by `f` applied to them. -/
def setCol (d : Dataset) (v : String) (f : Column → Column) : Dataset :=
  d.map (fun p => if p.1 == v then (p.1, f p.2) else p)

/-- Drop a column by name. -/
def dropCol (d : Dataset) (v : String) : Dataset :=
  d.filter (fun p => !(p.1 == v))

/-- The categorical (string) values of a column, missing cells skipped. -/
def catVals (col : Column) : List String :=
  col.filterMap (fun c => match c with
    | some (Value.cat s) => some s
    | _ => none)

/-- The numeric values of a column, missing cells skipped. -/
def numVals (col : Column) : List ℚ :=
  col.filterMap (fun c => match c with
    | some (Value.num q) => some q
    | _ => none)

/-!  ## Source function: cabin mixed-variable extraction

From `M6N2-Classification-titanic.ipynb`:
  `data['cabin_num'] = data['cabin'].str.extract('(\d+)')` then `astype('float')`,
  `data['cabin_cat'] = data['cabin'].str[0]`.
The regex `(\d+)` captures the leftmost maximal run of digit characters;
rows with a missing cabin, or with no digit in the string, yield a missing
cell.  `.str[0]` yields the one-character string at index 0, and yields a
missing cell both when the cabin is missing and when the string is empty. -/

/-- The leftmost maximal run of digit characters of a string (the characters
matched by the regex `(\d+)`); `[]` when the string has no digit. -/
def digitRun (s : String) : List Char :=
  (s.data.dropWhile (fun c => !c.isDigit)).takeWhile (fun c => c.isDigit)

/-- Decimal value of a list of digit characters. -/
def digitsToNat (l : List Char) : Nat :=
  l.foldl (fun acc c => 10 * acc + (c.toNat - 48)) 0

/-- `cabin_num`: the captured digit run converted to a number; missing when
the cabin is missing or contains no digit. -/
def cabinNum (o : Option String) : Option ℚ :=
  o.bind (fun s => if digitRun s = [] then none else some ((digitsToNat (digitRun s) : ℚ)))

/-- `cabin_cat`: the first character of the cabin string (`.str[0]`); missing
when the cabin is missing or the string is empty. -/
def cabinCat (o : Option String) : Option String :=
  o.bind (fun s => match s.data with
    | [] => none
    | c :: _ => some (String.mk [c]))

/-!  ## Source function: elapsed_years

From `M6N3-Regression-house-prices.ipynb`:
```
def elapsed_years(df, var):
    df[var] = df['YrSold'] - df[var]
    return df
```
-/

/-- Pointwise subtraction of numeric cells; missing (or non-numeric)
operands propagate a missing result. -/
def cellSub (a b : Cell) : Cell :=
  match a, b with
  | some (Value.num x), some (Value.num y) => some (Value.num (x - y))
  | _, _ => none

/-- `elapsed_years`: replaces column `var` by `YrSold - var`, pointwise. -/
def elapsedYears (d : Dataset) (var : String) : Dataset :=
  setCol d var (fun col => (List.zip (getCol d "YrSold") col).map (fun p => cellSub p.1 p.2))

/-!  ## Median -/

/-- Median of a list of rationals: middle element of the sorted list for odd
length, mean of the two middle elements for even length. -/
def medianQ (l : List ℚ) : ℚ :=
  let s := l.insertionSort (· ≤ ·)
  let n := s.length
  if n % 2 = 1 then s.getD (n / 2) 0
  else (s.getD (n / 2 - 1) 0 + s.getD (n / 2) 0) / 2

/-!  ## Spec-modelled transformer stages

The transformer implementations are not part of this repository (they are
library calls); each definition below is modelled from the specification's
per-stage contract and doc-commented accordingly.
-/

/-- Error taxonomy of the pipeline (spec section 7). -/
inductive PErr where
  | configurationError
  | fitError
deriving DecidableEq, Repr

/-- The distinct values of a list, in first-encounter order. -/
def uniqueCats : List String → List String
  | [] => []
  | x :: xs => x :: (uniqueCats xs).filter (fun y => !(y == x))

/-- Relative frequency of category `c` in a training column: the rational
count / length. -/
def freqOf (col : List String) (c : String) : ℚ :=
  mkRat (col.count c) col.length

/-- Modelled from the spec: RareLabelEncoder `fit` — the frequent-category
list: the top-`nCats` categories by descending training frequency (ties in
first-encounter order), restricted to those with frequency ≥ `tol`;
every other (or unseen) category is rare. -/
def rareFit (tol : ℚ) (nCats : Nat) (col : List String) : List String :=
  let cats := uniqueCats col
  let key := fun c => col.count c
  let sorted := cats.insertionSort
    (fun a b => key b < key a ∨ (key a = key b ∧ cats.indexOf a ≤ cats.indexOf b))
  (sorted.take nCats).filter (fun c => tol ≤ freqOf col c)

/-- Modelled from the spec: RareLabelEncoder `transform` on one value —
frequent categories pass through, rare or unseen categories map to the
reserved "Rare" label. -/
def rareTransformVal (frequent : List String) (c : String) : String :=
  if c ∈ frequent then c else "Rare"

/-- RareLabelEncoder `transform` on a whole column of values. -/
def rareTransformCol (frequent : List String) (col : List String) : List String :=
  col.map (rareTransformVal frequent)

/-- Sum of the target values of the rows holding category `c`. -/
def sumFor (col : List String) (y : List ℚ) (c : String) : ℚ :=
  (((col.zip y).filter (fun p => p.1 == c)).map (·.2)).sum

/-- Mean target value of the rows holding category `c` (the per-category
mean computed by OrdinalEncoder's ordered fit). -/
def meanFor (col : List String) (y : List ℚ) (c : String) : ℚ :=
  sumFor col y c / (col.count c : ℚ)

/-- Modelled from the spec: OrdinalEncoder `fit` (encoding_method='ordered')
— the fitted vocabulary: the column's categories sorted by ascending mean
target value; a category's rank is its index in this list. -/
def ordinalFit (col : List String) (y : List ℚ) : List String :=
  (uniqueCats col).insertionSort (fun a b => meanFor col y a ≤ meanFor col y b)

/-- The rank assigned to a category by the fitted vocabulary; an unseen
category gets `vocab.length`, the reserved out-of-range sentinel rank. -/
def ordinalRank (vocab : List String) (c : String) : Nat :=
  vocab.indexOf c

/-- The reserved out-of-range sentinel rank of a fitted vocabulary. -/
def ordinalSentinel (vocab : List String) : Nat :=
  vocab.length

/-- Fitted state of the RareLabelEncoder → OrdinalEncoder chain of a column:
the frequent-category list and the ordinal vocabulary fitted on the
rare-encoded training column. -/
def rareThenOrdinalFit (tol : ℚ) (nCats : Nat) (col : List String) (y : List ℚ) :
    List String × List String :=
  let frequent := rareFit tol nCats col
  (frequent, ordinalFit (rareTransformCol frequent col) y)

/-- Transform of one categorical value through the fitted RareLabelEncoder →
OrdinalEncoder chain. -/
def rareThenOrdinalTransform (frequent vocab : List String) (c : String) : Nat :=
  ordinalRank vocab (rareTransformVal frequent c)

/-- Modelled from the spec: MeanMedianImputer (median) `fit` on one column —
the median of the non-missing training rows; `FitError` when the column is
entirely missing. -/
def medianFitCol (col : Column) : Except PErr ℚ :=
  match numVals col with
  | [] => Except.error PErr.fitError
  | v :: vs => Except.ok (medianQ (v :: vs))

/-- Modelled from the spec: MeanMedianImputer `transform` on one column —
replaces each missing entry by the stored median. -/
def medianTransformCol (m : ℚ) (col : Column) : Column :=
  col.map (fun c => match c with
    | none => some (Value.num m)
    | some v => some v)

/-- Modelled from the spec: CategoricalImputer `transform` — replaces
missing entries by the reserved "Missing" label. -/
def catImputeCol (col : Column) : Column :=
  col.map (fun c => match c with
    | none => some (Value.cat "Missing")
    | some v => some v)

/-- Modelled from the spec: AddMissingIndicator `transform` of one column —
the indicator column: 1 where the original value is absent, else 0. -/
def missingIndicatorCol (col : Column) : Column :=
  col.map (fun c => match c with
    | none => some (Value.num 1)
    | some _ => some (Value.num 0))

/-- Quantile cut position `i` of `q` over `n` sorted training rows. -/
def binPos (n q i : Nat) : Nat :=
  i * n / q

/-- Number of training rows that the fitted equal-frequency bin `i` holds:
the rows of the sorted training column between cut positions `i` and
`i+1`. -/
def efBinCount (col : List ℚ) (q i : Nat) : Nat :=
  binPos col.length q (i + 1) - binPos col.length q i

/-- Modelled from the spec: EqualFrequencyDiscretiser `fit` — the interior
bin-edge values, read off the sorted training column at the quantile cut
positions. -/
def efEdges (col : List ℚ) (q : Nat) : List ℚ :=
  let s := col.insertionSort (· ≤ ·)
  (List.range (q - 1)).map (fun i => s.getD (binPos col.length q (i + 1)) 0)

/-- Modelled from the spec: EqualFrequencyDiscretiser `transform` of one
value — its bin index by edge comparison; values beyond the observed
range clamp to the first/last bin. -/
def efTransformVal (edges : List ℚ) (x : ℚ) : Nat :=
  (edges.filter (fun e => e ≤ x)).length

/-- The categorical values of a column paired with the target value of
their row. -/
def catPairs (col : Column) (y : List ℚ) : List (String × ℚ) :=
  (col.zip y).filterMap (fun p => match p.1 with
    | some (Value.cat s) => some (s, p.2)
    | _ => none)

/-- OrdinalEncoder `fit` on a column of cells: ordered fit over the
categorical cells and their row targets. -/
def ordinalFitCol (col : Column) (y : List ℚ) : List String :=
  ordinalFit ((catPairs col y).map (·.1)) ((catPairs col y).map (·.2))

/-- Apply a function to the categorical cells of a column, other cells
unchanged. -/
def mapCatCell (f : String → Value) (c : Cell) : Cell :=
  match c with
  | some (Value.cat s) => some (f s)
  | other => other

/-- Apply a function to the numeric cells of a column, other cells
unchanged. -/
def mapNumCell (f : ℚ → Value) (c : Cell) : Cell :=
  match c with
  | some (Value.num x) => some (f x)
  | other => other

/-- A pipeline stage declaration: kind, configuration, and declared target
columns (spec section 3, "Stage"). -/
inductive StageSpec where
  | missingInd (vars : List String)
  | medianImp (vars : List String)
  | catImp (vars : List String)
  | rareLabel (tol : ℚ) (nCats : Nat) (vars : List String)
  | ordinalEnc (vars : List String)
  | efDiscretiser (q : Nat) (vars : List String)
deriving DecidableEq, Repr

/-- The declared target columns of a stage. -/
def StageSpec.targets : StageSpec → List String
  | .missingInd vars => vars
  | .medianImp vars => vars
  | .catImp vars => vars
  | .rareLabel _ _ vars => vars
  | .ordinalEnc vars => vars
  | .efDiscretiser _ vars => vars

/-- The fitted state of a stage (spec section 3: per-column medians,
frequent-category sets, vocabularies, bin edges). -/
inductive FittedStage where
  | missingInd (vars : List String)
  | medianImp (st : List (String × ℚ))
  | catImp (vars : List String)
  | rareLabel (st : List (String × List String))
  | ordinalEnc (st : List (String × List String))
  | efDiscretiser (st : List (String × List ℚ))
deriving DecidableEq, Repr

/-- Per-column medians of the declared columns; the first `FitError`
(entirely-missing column) aborts. -/
def mediansFor (d : Dataset) : List String → Except PErr (List (String × ℚ))
  | [] => Except.ok []
  | v :: vs =>
    match medianFitCol (getCol d v), mediansFor d vs with
    | Except.error e, _ => Except.error e
    | Except.ok _, Except.error e => Except.error e
    | Except.ok m, Except.ok rest => Except.ok ((v, m) :: rest)

/-- Stage `fit` proper (column presence already checked): computes the
fitted state from the training data and labels; may fail with `FitError`
but never with `ConfigurationError`. -/
def fitStageRaw (s : StageSpec) (d : Dataset) (y : List ℚ) : Except PErr FittedStage :=
  match s with
  | .missingInd vars => Except.ok (FittedStage.missingInd vars)
  | .medianImp vars =>
      (mediansFor d vars).map FittedStage.medianImp
  | .catImp vars => Except.ok (FittedStage.catImp vars)
  | .rareLabel tol n vars =>
      Except.ok (FittedStage.rareLabel
        (vars.map (fun v => (v, rareFit tol n (catVals (getCol d v))))))
  | .ordinalEnc vars =>
      Except.ok (FittedStage.ordinalEnc
        (vars.map (fun v => (v, ordinalFitCol (getCol d v) y))))
  | .efDiscretiser q vars =>
      Except.ok (FittedStage.efDiscretiser
        (vars.map (fun v => (v, efEdges (numVals (getCol d v)) q))))

/-- Stage `fit` with the configuration check of spec section 4.1: fails
with `ConfigurationError` when a declared column is absent from the
incoming data. -/
def fitStage (s : StageSpec) (d : Dataset) (y : List ℚ) : Except PErr FittedStage :=
  if s.targets.all (fun v => (colNames d).contains v) then fitStageRaw s d y
  else Except.error PErr.configurationError

/-- Stage `transform`: produces the output dataset using only the stored
fitted state, never recomputing statistics from the argument. -/
def transformStage (f : FittedStage) (d : Dataset) : Dataset :=
  match f with
  | .missingInd vars =>
      d ++ vars.map (fun v => (v ++ "_na", missingIndicatorCol (getCol d v)))
  | .medianImp st =>
      st.foldl (fun acc p => setCol acc p.1 (medianTransformCol p.2)) d
  | .catImp vars =>
      vars.foldl (fun acc v => setCol acc v catImputeCol) d
  | .rareLabel st =>
      st.foldl (fun acc p =>
        setCol acc p.1 (fun col =>
          col.map (mapCatCell (fun s => Value.cat (rareTransformVal p.2 s))))) d
  | .ordinalEnc st =>
      st.foldl (fun acc p =>
        setCol acc p.1 (fun col =>
          col.map (mapCatCell (fun s => Value.num ((ordinalRank p.2 s : ℚ)))))) d
  | .efDiscretiser st =>
      st.foldl (fun acc p =>
        setCol acc p.1 (fun col =>
          col.map (mapNumCell (fun x => Value.num ((efTransformVal p.2 x : ℚ)))))) d

/-- Stage `transform` in the general stateful signature of the lifecycle:
returns the output dataset together with the stage state after the call;
each stage kind returns its stored state untouched. -/
def transformStageS (f : FittedStage) (d : Dataset) : Dataset × FittedStage :=
  match f with
  | .missingInd vars => (transformStage (FittedStage.missingInd vars) d, FittedStage.missingInd vars)
  | .medianImp st => (transformStage (FittedStage.medianImp st) d, FittedStage.medianImp st)
  | .catImp vars => (transformStage (FittedStage.catImp vars) d, FittedStage.catImp vars)
  | .rareLabel st => (transformStage (FittedStage.rareLabel st) d, FittedStage.rareLabel st)
  | .ordinalEnc st => (transformStage (FittedStage.ordinalEnc st) d, FittedStage.ordinalEnc st)
  | .efDiscretiser st => (transformStage (FittedStage.efDiscretiser st) d, FittedStage.efDiscretiser st)

/-- Pipeline `transform` in the stateful signature: replays each fitted
stage's `transform` in order, threading the stage states through. -/
def pipeTransformS : List FittedStage → Dataset → Dataset × List FittedStage
  | [], d => (d, [])
  | f :: fs, d =>
      let r1 := transformStageS f d
      let r2 := pipeTransformS fs r1.1
      (r2.1, r1.2 :: r2.2)

/-- Pipeline `transform` (pure form): replays each fitted stage's
`transform` in order. -/
def pipeTransform (fs : List FittedStage) (d : Dataset) : Dataset :=
  fs.foldl (fun acc f => transformStage f acc) d

/-- Pipeline `fit`: for each stage in declared order, fit it on the current
data, then transform the current data for the next stage; aborts on the
first error (spec section 4.1). -/
def pipeFit : List StageSpec → Dataset → List ℚ → Except PErr (List FittedStage × Dataset)
  | [], d, _ => Except.ok ([], d)
  | s :: rest, d, y =>
      match fitStage s d y with
      | Except.error e => Except.error e
      | Except.ok f =>
          match pipeFit rest (transformStage f d) y with
          | Except.error e => Except.error e
          | Except.ok r => Except.ok (f :: r.1, r.2)

/-- Written from the spec's words (refinement side of the fit-time
configuration check): some stage's declared target columns are absent from
the dataset that reaches that stage at fit time — the first stage sees the
training data, each later stage sees the successfully fitted-and-transformed
output of the stage before it. -/
def someStageColumnsMissing : List StageSpec → Dataset → List ℚ → Prop
  | [], _, _ => False
  | s :: rest, d, y =>
      (¬ s.targets ⊆ colNames d) ∨
      (∃ f, fitStage s d y = Except.ok f ∧
        someStageColumnsMissing rest (transformStage f d) y)

/-!  ## Concrete scenario data -/

/-- Shorthand: a non-missing numeric cell. -/
def nc (q : ℚ) : Cell := some (Value.num q)

/-- Training data of the regression end-to-end scenario: a row with
YearBuilt 2000, YrSold 2005 and LotFrontage missing, plus one more row. -/
def houseTrain : Dataset :=
  [("YearBuilt", [nc 2000, nc 1990]),
   ("YearRemodAdd", [nc 2000, nc 1991]),
   ("GarageYrBlt", [nc 2000, none]),
   ("YrSold", [nc 2005, nc 2000]),
   ("LotFrontage", [none, nc 60]),
   ("MasVnrArea", [nc 1, none])]

/-- The notebook's preprocessing before `house_pipe`: `elapsed_years` on
YearBuilt, YearRemodAdd and GarageYrBlt, then drop YrSold. -/
def housePrepared : Dataset :=
  dropCol
    (elapsedYears (elapsedYears (elapsedYears houseTrain "YearBuilt") "YearRemodAdd")
      "GarageYrBlt")
    "YrSold"

/-- The imputation stages of `house_pipe` that produce the scenario's
outputs: AddMissingIndicator and median MeanMedianImputer over
LotFrontage, MasVnrArea, GarageYrBlt. -/
def houseImputeStages : List StageSpec :=
  [StageSpec.missingInd ["LotFrontage", "MasVnrArea", "GarageYrBlt"],
   StageSpec.medianImp ["LotFrontage", "MasVnrArea", "GarageYrBlt"]]

/-- Training labels of the regression scenario (not consumed by the
imputation stages). -/
def houseY : List ℚ := [100000, 150000]

/-- Training column of the unseen-category scenario: category "B" is rare
(frequency 1/4 < tolerance 3/10). -/
def c1TrainCol : List String := ["A", "A", "A", "B"]

/-- Training labels of the unseen-category scenario. -/
def c1Y : List ℚ := [0, 0, 0, 1]

/-- Fitted RareLabelEncoder → OrdinalEncoder chain of the unseen-category
scenario. -/
def c1Fitted : List String × List String :=
  rareThenOrdinalFit (mkRat 3 10) 6 c1TrainCol c1Y


/-- The fitted states of the scenario's imputation stages: the declared
indicator columns and the per-column training medians (LotFrontage 60,
MasVnrArea 1, GarageYrBlt 5). -/
def houseFitted : List FittedStage :=
  [FittedStage.missingInd ["LotFrontage", "MasVnrArea", "GarageYrBlt"],
   FittedStage.medianImp [("LotFrontage", 60), ("MasVnrArea", 1), ("GarageYrBlt", 5)]]

/-- The scenario's dataset after fit-and-transform through the imputation
stages. -/
def houseFitOutput : Dataset :=
  [("YearBuilt", [nc 5, nc 10]),
   ("YearRemodAdd", [nc 5, nc 9]),
   ("GarageYrBlt", [nc 5, nc 5]),
   ("LotFrontage", [nc 60, nc 60]),
   ("MasVnrArea", [nc 1, nc 1]),
   ("LotFrontage_na", [nc 1, nc 0]),
   ("MasVnrArea_na", [nc 0, nc 1]),
   ("GarageYrBlt_na", [nc 0, nc 1])]

/-!  ## Helper lemmas -/

lemma mem_rareFit_tol {tol : ℚ} {n : Nat} {col : List String} {c : String}
    (h : c ∈ rareFit tol n col) : tol ≤ freqOf col c := by
  unfold rareFit at h
  exact of_decide_eq_true (List.mem_filter.1 h).2

lemma rareTransformVal_of_freq_lt {tol : ℚ} {n : Nat} {col : List String} {c : String}
    (h : freqOf col c < tol) : rareTransformVal (rareFit tol n col) c = "Rare" := by
  unfold rareTransformVal
  rw [if_neg]
  intro hc
  exact absurd (mem_rareFit_tol hc) (not_le.2 h)

lemma transformStageS_eq (f : FittedStage) (d : Dataset) :
    transformStageS f d = (transformStage f d, f) := by
  cases f <;> rfl

lemma pipeTransformS_eq (fs : List FittedStage) (d : Dataset) :
    pipeTransformS fs d = (pipeTransform fs d, fs) := by
  induction fs generalizing d with
  | nil => rfl
  | cons f fs ih => simp [pipeTransformS, transformStageS_eq, pipeTransform, List.foldl, ih]

lemma binPos_bounds (n q i : Nat) (hq : 0 < q) :
    binPos n q i + n / q ≤ binPos n q (i + 1) ∧
    binPos n q (i + 1) ≤ binPos n q i + n / q + 1 := by
  unfold binPos
  have he : (i + 1) * n = i * n + n := by ring
  constructor
  · rw [he, Nat.le_div_iff_mul_le hq, Nat.add_mul]
    exact Nat.add_le_add (Nat.div_mul_le_self _ _) (Nat.div_mul_le_self _ _)
  · rw [he]
    have h2 : (i * n + n) / q < i * n / q + n / q + 2 := by
      rw [Nat.div_lt_iff_lt_mul hq]
      have a1 : i * n < (i * n / q + 1) * q := by
        have h := Nat.div_add_mod (i * n) q
        have hm := Nat.mod_lt (i * n) hq
        nlinarith [h, hm]
      have a2 : n < (n / q + 1) * q := by
        have h := Nat.div_add_mod n q
        have hm := Nat.mod_lt n hq
        nlinarith [h, hm]
      calc i * n + n < (i * n / q + 1) * q + (n / q + 1) * q := Nat.add_lt_add a1 a2
        _ = (i * n / q + n / q + 2) * q := by ring
    omega

/-!  ## Claims -/

/-- C2: a fitted pipeline's `transform` (and hence `predict`) is
deterministic and never mutates stored fitted state: the stage states
coming out of a `transform` call are exactly the fitted states that went
in, and replaying `transform` on those states over the same input yields
the identical output and the identical states again. -/
theorem transform_deterministic_and_state_preserving (fs : List FittedStage) (d : Dataset) :
    (pipeTransformS fs d).2 = fs ∧
    (pipeTransformS (pipeTransformS fs d).2 d).1 = (pipeTransformS fs d).1 ∧
    (pipeTransformS (pipeTransformS fs d).2 d).2 = fs := by
  simp [pipeTransformS_eq]

/-- C3: a category whose training-set relative frequency is below the
configured tolerance is mapped to the "Rare" label by the fitted
RareLabelEncoder, both as a value and inside any held-out column
containing it. -/
theorem rare_category_below_tolerance_maps_to_Rare
    (col : List String) (tol : ℚ) (n : Nat) (c : String)
    (h : freqOf col c < tol) :
    rareTransformVal (rareFit tol n col) c = "Rare" ∧
    ∀ heldOut : List String, c ∈ heldOut →
      "Rare" ∈ rareTransformCol (rareFit tol n col) heldOut := by
  refine ⟨rareTransformVal_of_freq_lt h, fun heldOut hd => ?_⟩
  have hv : rareTransformVal (rareFit tol n col) c = "Rare" :=
    rareTransformVal_of_freq_lt h
  exact hv ▸ List.mem_map_of_mem _ hd

theorem rare_category_below_tolerance_maps_to_Rare_witness :
    freqOf ["A", "A", "A", "B"] "B" < mkRat 3 10 ∧
    rareTransformVal (rareFit (mkRat 3 10) 6 ["A", "A", "A", "B"]) "B" = "Rare" :=
  ⟨by decide,
   (rare_category_below_tolerance_maps_to_Rare ["A", "A", "A", "B"] (mkRat 3 10) 6 "B"
     (by decide)).1⟩

/-- C5: after a successful median fit, `transform` leaves no missing entry
in the column on any input, every entry that was missing in the input
equals exactly the stored median, and the stored median is exactly the
median of the non-missing training rows. -/
theorem median_imputation_complete (train col : Column) (m : ℚ)
    (h : medianFitCol train = Except.ok m) :
    m = medianQ (numVals train) ∧
    (∀ c ∈ medianTransformCol m col, c ≠ none) ∧
    (∀ i : Nat, col[i]? = some none →
      (medianTransformCol m col)[i]? = some (some (Value.num m))) := by
  refine ⟨?_, ?_, ?_⟩
  · unfold medianFitCol at h
    rcases hnv : numVals train with _ | ⟨v, vs⟩ <;> rw [hnv] at h
    · simp at h
    · simp only [Except.ok.injEq] at h
      exact h.symm
  · intro c hc
    rcases List.mem_map.1 hc with ⟨a, -, rfl⟩
    cases a <;> simp
  · intro i hi
    unfold medianTransformCol
    rw [List.getElem?_map, hi]
    rfl

theorem median_imputation_complete_witness :
    medianFitCol [some (Value.num 60), none] = Except.ok 60 ∧
    (medianTransformCol 60 [none, some (Value.num 7)])[0]? = some (some (Value.num 60)) :=
  ⟨by rfl,
   (median_imputation_complete [some (Value.num 60), none] [none, some (Value.num 7)] 60
     (by rfl)).2.2 0 (by rfl)⟩

/-- C6: the fitted equal-frequency cut positions partition the sorted
training column into bins whose row counts differ from one another by at
most one row. -/
theorem ef_bin_counts_balanced (col : List ℚ) (q i j : Nat) (hq : 0 < q) :
    efBinCount col q i ≤ efBinCount col q j + 1 := by
  have hi := binPos_bounds col.length q i hq
  have hj := binPos_bounds col.length q j hq
  unfold efBinCount
  omega

theorem ef_bin_counts_balanced_witness :
    0 < 5 ∧ efBinCount [1, 2, 3, 4, 5, 6, 7] 5 2 ≤ efBinCount [1, 2, 3, 4, 5, 6, 7] 5 0 + 1 :=
  ⟨by decide, ef_bin_counts_balanced [1, 2, 3, 4, 5, 6, 7] 5 2 0 (by decide)⟩

/-- C8: the mixed-variable extraction of cabin "C85" yields cabin_num 85
and cabin_cat "C", and when category "C" has training frequency below the
1% tolerance the fitted RareLabelEncoder remaps it to "Rare" before the
ordinal encoding stage. -/
theorem cabin_C85_extraction_and_rare_remap (col : List String)
    (h : freqOf col "C" < 1 / 100) :
    cabinNum (some "C85") = some 85 ∧
    cabinCat (some "C85") = some "C" ∧
    rareTransformVal (rareFit (1 / 100) 6 col) "C" = "Rare" :=
  ⟨by decide, by decide, rareTransformVal_of_freq_lt h⟩

theorem cabin_C85_extraction_and_rare_remap_witness :
    freqOf (List.replicate 100 "A" ++ ["C"]) "C" < 1 / 100 ∧
    rareTransformVal (rareFit (1 / 100) 6 (List.replicate 100 "A" ++ ["C"])) "C" = "Rare" := by
  have hfreq : freqOf (List.replicate 100 "A" ++ ["C"]) "C" < 1 / 100 := by
    have h1 : freqOf (List.replicate 100 "A" ++ ["C"]) "C" = mkRat 1 101 := by decide
    rw [h1, Rat.mkRat_eq_div]
    norm_num
  exact ⟨hfreq,
    (cabin_C85_extraction_and_rare_remap (List.replicate 100 "A" ++ ["C"]) hfreq).2.2⟩

lemma mem_uniqueCats (l : List String) (a : String) : a ∈ uniqueCats l ↔ a ∈ l := by
  induction l with
  | nil => simp [uniqueCats]
  | cons x xs ih =>
    simp only [uniqueCats, List.mem_cons, List.mem_filter, ih]
    by_cases hax : a = x
    · simp [hax]
    · simp [hax]

lemma rareFit_subset {tol : ℚ} {n : Nat} {col : List String} {c : String}
    (h : c ∈ rareFit tol n col) : c ∈ col := by
  unfold rareFit at h
  exact (mem_uniqueCats _ _).1
    ((List.mem_insertionSort _).1 (List.take_subset _ _ (List.mem_filter.1 h).1))

lemma rareThenOrdinalFit_fst (tol : ℚ) (n : Nat) (col : List String) (y : List ℚ) :
    (rareThenOrdinalFit tol n col y).1 = rareFit tol n col := rfl

lemma rareThenOrdinalFit_snd (tol : ℚ) (n : Nat) (col : List String) (y : List ℚ) :
    (rareThenOrdinalFit tol n col y).2 = ordinalFit (rareTransformCol (rareFit tol n col) col) y :=
  rfl

/-- C4: the fitted ordinal encoding is monotone in the per-category mean
target value computed on the training data: a category with strictly lower
training mean target gets a rank no greater than one with higher mean. -/
theorem ordinal_rank_monotone_in_target_mean (col : List String) (y : List ℚ) (a b : String)
    (ha : a ∈ col) (hb : b ∈ col)
    (hab : meanFor col y a < meanFor col y b) :
    ordinalRank (ordinalFit col y) a ≤ ordinalRank (ordinalFit col y) b := by
  by_contra hcon
  push_neg at hcon
  have hcon' : (ordinalFit col y).indexOf b < (ordinalFit col y).indexOf a := hcon
  haveI : IsTotal String (fun u v => meanFor col y u ≤ meanFor col y v) :=
    ⟨fun u v => le_total _ _⟩
  haveI : IsTrans String (fun u v => meanFor col y u ≤ meanFor col y v) :=
    ⟨fun u v w h1 h2 => le_trans h1 h2⟩
  have hs : List.Sorted (fun u v => meanFor col y u ≤ meanFor col y v) (ordinalFit col y) :=
    List.sorted_insertionSort _ _
  have hma : a ∈ ordinalFit col y := by
    unfold ordinalFit
    exact (List.mem_insertionSort _).2 ((mem_uniqueCats _ _).2 ha)
  have hmb : b ∈ ordinalFit col y := by
    unfold ordinalFit
    exact (List.mem_insertionSort _).2 ((mem_uniqueCats _ _).2 hb)
  have hla : (ordinalFit col y).indexOf a < (ordinalFit col y).length :=
    List.indexOf_lt_length.2 hma
  have hlb : (ordinalFit col y).indexOf b < (ordinalFit col y).length :=
    List.indexOf_lt_length.2 hmb
  have hget := hs.rel_get_of_lt
    (a := ⟨(ordinalFit col y).indexOf b, hlb⟩)
    (b := ⟨(ordinalFit col y).indexOf a, hla⟩) hcon'
  simp only [List.get_eq_getElem, List.getElem_indexOf hla, List.getElem_indexOf hlb] at hget
  exact absurd hget (not_le.2 hab)

theorem ordinal_rank_monotone_in_target_mean_witness :
    ("b" ∈ ["a", "b", "a"] ∧ "a" ∈ ["a", "b", "a"] ∧
      meanFor ["a", "b", "a"] [1, 0, 1] "b" < meanFor ["a", "b", "a"] [1, 0, 1] "a") ∧
    ordinalRank (ordinalFit ["a", "b", "a"] [1, 0, 1]) "b" ≤
      ordinalRank (ordinalFit ["a", "b", "a"] [1, 0, 1]) "a" := by
  have hm : meanFor ["a", "b", "a"] [1, 0, 1] "b" < meanFor ["a", "b", "a"] [1, 0, 1] "a" := by
    norm_num +decide [meanFor, sumFor]
  exact ⟨⟨by decide, by decide, hm⟩,
    ordinal_rank_monotone_in_target_mean ["a", "b", "a"] [1, 0, 1] "b" "a"
      (by decide) (by decide) hm⟩

/-- C1, counterexample: in the fitted RareLabelEncoder → OrdinalEncoder
chain of the concrete training column ["A","A","A","B"] (tolerance 3/10,
under which "B" is rare), the unseen category "Z" does NOT resolve to the
reserved out-of-range sentinel rank: it receives rank 1, the very rank of
the fitted "Rare" bucket, while the sentinel rank is 2. -/
theorem unseen_category_rank_counterexample :
    "Z" ∉ c1TrainCol ∧
    rareThenOrdinalTransform c1Fitted.1 c1Fitted.2 "Z" = ordinalRank c1Fitted.2 "Rare" ∧
    ordinalRank c1Fitted.2 "Rare" = 1 ∧
    ordinalSentinel c1Fitted.2 = 2 ∧
    rareThenOrdinalTransform c1Fitted.1 c1Fitted.2 "Z" ≠ ordinalSentinel c1Fitted.2 := by
  have hfst : c1Fitted.1 = ["A"] := by decide
  have hsnd : c1Fitted.2 = ["A", "Rare"] := by
    have hcol : rareTransformCol (rareFit (mkRat 3 10) 6 c1TrainCol) c1TrainCol =
        ["A", "A", "A", "Rare"] := by decide
    show ordinalFit (rareTransformCol (rareFit (mkRat 3 10) 6 c1TrainCol) c1TrainCol) c1Y = _
    rw [hcol]
    unfold ordinalFit
    have hu : uniqueCats ["A", "A", "A", "Rare"] = ["A", "Rare"] := by decide
    rw [hu]
    have hr : meanFor ["A", "A", "A", "Rare"] c1Y "A" ≤ meanFor ["A", "A", "A", "Rare"] c1Y "Rare" := by
      norm_num +decide [meanFor, sumFor, c1Y]
    simp [List.insertionSort, List.orderedInsert, hr]
  refine ⟨by decide, ?_, ?_, ?_, ?_⟩ <;> simp only [hfst, hsnd] <;> decide

/-- C1, amended: an unseen categorical value never fails and resolves
deterministically — the RareLabelEncoder first maps it to the "Rare"
label, so the composite assigns it the ordinal encoding of "Rare": the
fitted "Rare" bucket's rank when "Rare" is in the fitted vocabulary, and
the reserved out-of-range sentinel rank only otherwise. -/
theorem unseen_category_resolves_to_Rare_bucket_encoding
    (tol : ℚ) (n : Nat) (col : List String) (y : List ℚ) (c : String)
    (h : c ∉ col) :
    rareThenOrdinalTransform (rareThenOrdinalFit tol n col y).1
        (rareThenOrdinalFit tol n col y).2 c =
      ordinalRank (rareThenOrdinalFit tol n col y).2 "Rare" ∧
    ("Rare" ∉ (rareThenOrdinalFit tol n col y).2 →
      rareThenOrdinalTransform (rareThenOrdinalFit tol n col y).1
          (rareThenOrdinalFit tol n col y).2 c =
        ordinalSentinel (rareThenOrdinalFit tol n col y).2) := by
  have hnot : c ∉ rareFit tol n col := fun hc => h (rareFit_subset hc)
  have h1 : rareTransformVal (rareFit tol n col) c = "Rare" := if_neg hnot
  have hmain : rareThenOrdinalTransform (rareThenOrdinalFit tol n col y).1
      (rareThenOrdinalFit tol n col y).2 c =
      ordinalRank (rareThenOrdinalFit tol n col y).2 "Rare" := by
    unfold rareThenOrdinalTransform
    rw [rareThenOrdinalFit_fst, h1]
  refine ⟨hmain, fun hmem => ?_⟩
  rw [hmain]
  unfold ordinalRank ordinalSentinel
  exact List.indexOf_eq_length.2 hmem

theorem unseen_category_resolves_to_Rare_bucket_encoding_witness :
    "Z" ∉ c1TrainCol ∧
    rareThenOrdinalTransform (rareThenOrdinalFit (mkRat 3 10) 6 c1TrainCol c1Y).1
        (rareThenOrdinalFit (mkRat 3 10) 6 c1TrainCol c1Y).2 "Z" =
      ordinalRank (rareThenOrdinalFit (mkRat 3 10) 6 c1TrainCol c1Y).2 "Rare" :=
  ⟨by decide,
   (unseen_category_resolves_to_Rare_bucket_encoding (mkRat 3 10) 6 c1TrainCol c1Y "Z"
     (by decide)).1⟩

lemma medianFitCol_ne_config (col : Column) :
    medianFitCol col ≠ Except.error PErr.configurationError := by
  unfold medianFitCol
  cases numVals col <;> simp

lemma mediansFor_ne_config (d : Dataset) :
    ∀ vs : List String, mediansFor d vs ≠ Except.error PErr.configurationError := by
  intro vs
  induction vs with
  | nil => simp [mediansFor]
  | cons v vs ih =>
    unfold mediansFor
    rcases h : medianFitCol (getCol d v) with e | m
    · have hne := medianFitCol_ne_config (getCol d v)
      rw [h] at hne
      simp only [ne_eq, Except.error.injEq] at hne
      simp [h, hne]
    · rcases h2 : mediansFor d vs with e2 | rest
      · have hne := ih
        rw [h2] at hne
        simp only [ne_eq, Except.error.injEq] at hne
        simp [h, h2, hne]
      · simp [h, h2]

lemma fitStageRaw_ne_config (s : StageSpec) (d : Dataset) (y : List ℚ) :
    fitStageRaw s d y ≠ Except.error PErr.configurationError := by
  cases s with
  | medianImp vars =>
    unfold fitStageRaw
    rcases h : mediansFor d vars with e | r
    · have hne := mediansFor_ne_config d vars
      rw [h] at hne
      simp only [ne_eq, Except.error.injEq] at hne
      simp [h, Except.map, hne]
    · simp [h, Except.map]
  | missingInd vars => simp [fitStageRaw]
  | catImp vars => simp [fitStageRaw]
  | rareLabel tol n vars => simp [fitStageRaw]
  | ordinalEnc vars => simp [fitStageRaw]
  | efDiscretiser q vars => simp [fitStageRaw]

lemma fitStage_config_iff (s : StageSpec) (d : Dataset) (y : List ℚ) :
    fitStage s d y = Except.error PErr.configurationError ↔ ¬ s.targets ⊆ colNames d := by
  unfold fitStage
  by_cases h : s.targets.all (fun v => (colNames d).contains v)
  · rw [if_pos h]
    constructor
    · intro hh
      exact absurd hh (fitStageRaw_ne_config s d y)
    · intro hsub
      exfalso
      apply hsub
      intro v hv
      have hc := List.all_eq_true.1 h v hv
      exact List.elem_iff.1 hc
  · rw [if_neg h]
    constructor
    · intro _
      intro hsub
      apply h
      rw [List.all_eq_true]
      intro v hv
      exact List.elem_iff.2 (hsub hv)
    · intro _
      rfl

/-- C9: pipeline `fit` fails with `ConfigurationError` if and only if some
stage's declared target columns are absent from the dataset that reaches
that stage at fit time (the training data for the first stage, the fitted
predecessor's transform output for each later stage); the check happens at
fit time and the error aborts fitting. -/
theorem pipeline_config_error_iff_missing_columns (specs : List StageSpec) (d : Dataset) (y : List ℚ) :
    pipeFit specs d y = Except.error PErr.configurationError ↔
      someStageColumnsMissing specs d y := by
  induction specs generalizing d with
  | nil => simp [pipeFit, someStageColumnsMissing]
  | cons s rest ih =>
    unfold pipeFit someStageColumnsMissing
    rcases hfs : fitStage s d y with e | f
    · cases e with
      | configurationError =>
        have hc : ¬ s.targets ⊆ colNames d := (fitStage_config_iff s d y).1 hfs
        simp [hc]
      | fitError =>
        have hsub : ¬¬ s.targets ⊆ colNames d :=
          fun hn => by
            have hcfg := (fitStage_config_iff s d y).2 hn
            rw [hfs] at hcfg
            exact absurd hcfg (by simp)
        constructor
        · intro hh
          exact absurd hh (by simp)
        · rintro (hn | ⟨f, hf, -⟩)
          · exact absurd hn hsub
          · exact absurd hf (by simp)
    · have hsub : ¬¬ s.targets ⊆ colNames d :=
        fun hn => by
          have hcfg := (fitStage_config_iff s d y).2 hn
          rw [hfs] at hcfg
          exact absurd hcfg (by simp)
      constructor
      · intro hh
        have hh' : (match pipeFit rest (transformStage f d) y with
            | Except.error e => (Except.error e : Except PErr (List FittedStage × Dataset))
            | Except.ok r => Except.ok (f :: r.1, r.2)) =
            Except.error PErr.configurationError := hh
        clear hh
        rcases hrec : pipeFit rest (transformStage f d) y with e2 | r <;> rw [hrec] at hh'

        · have hh2 : (Except.error e2 : Except PErr (List FittedStage × Dataset)) =
              Except.error PErr.configurationError := hh'
          simp only [Except.error.injEq] at hh2
          subst hh2
          exact Or.inr ⟨f, rfl, (ih _).1 hrec⟩
        · exact absurd
            (show (Except.ok (f :: r.1, r.2) : Except PErr (List FittedStage × Dataset)) =
              Except.error PErr.configurationError from hh') (by simp)
      · rintro (hn | ⟨f2, hf2, hreach⟩)
        · exact absurd hn hsub
        · have hf2' : f = f2 := by
            have := hf2
            simp only [Except.ok.injEq] at this
            exact this
          subst hf2'
          have hrec := (ih _).2 hreach
          show (match pipeFit rest (transformStage f d) y with
            | Except.error e => (Except.error e : Except PErr (List FittedStage × Dataset))
            | Except.ok r => Except.ok (f :: r.1, r.2)) =
            Except.error PErr.configurationError
          rw [hrec]


/-- C7: regression end-to-end scenario — on training data holding a row
with YearBuilt 2000, YrSold 2005 and LotFrontage missing, the notebook's
elapsed_years preprocessing followed by fitting and transforming the
house pipeline's missing-indicator and median-imputation stages outputs
YearBuilt = 5 (elapsed years), LotFrontage_na = 1, and LotFrontage equal
to the fitted training median (60). -/
theorem house_scenario_outputs :
    pipeFit houseImputeStages housePrepared houseY = Except.ok (houseFitted, houseFitOutput) ∧
    pipeTransform houseFitted housePrepared = houseFitOutput ∧
    getCol houseFitOutput "YearBuilt" = [nc 5, nc 10] ∧
    getCol houseFitOutput "LotFrontage_na" = [nc 1, nc 0] ∧
    getCol houseFitOutput "LotFrontage" = [nc 60, nc 60] ∧
    medianQ (numVals (getCol housePrepared "LotFrontage")) = 60 := by
  refine ⟨?_, ?_, ?_, ?_, ?_, ?_⟩ <;>
  norm_num +decide [pipeFit, pipeTransform, houseImputeStages, fitStage, fitStageRaw, mediansFor,
    medianFitCol, medianQ, numVals, getCol, setCol, colNames, StageSpec.targets, transformStage,
    missingIndicatorCol, medianTransformCol, houseFitOutput, houseFitted, houseY, nc,
    housePrepared, houseTrain, elapsedYears, dropCol, cellSub, List.zip, List.zipWith,
    List.find?, List.filter, List.filterMap, List.insertionSort, List.orderedInsert,
    Except.map, Option.map, Option.getD]

lemma runAux_nil_iff (l : List Char) :
    (l.dropWhile (fun c => !c.isDigit)).takeWhile (fun c => c.isDigit) = [] ↔
      ∀ c ∈ l, c.isDigit = false := by
  induction l with
  | nil => simp
  | cons c t ih =>
    by_cases hc : c.isDigit = true
    · simp [List.dropWhile_cons, List.takeWhile_cons, hc]
    · simp only [Bool.not_eq_true] at hc
      simp [List.dropWhile_cons, hc, ih]

lemma dropWhile_append_all {p : Char → Bool} :
    ∀ (pre rest : List Char), (∀ c ∈ pre, p c = true) →
      (pre ++ rest).dropWhile p = rest.dropWhile p := by
  intro pre
  induction pre with
  | nil => intro rest _; rfl
  | cons c t ih =>
    intro rest h
    have hc : p c = true := h c (List.mem_cons_self c t)
    simp [List.dropWhile_cons, hc]
    exact ih rest (fun x hx => h x (List.mem_cons_of_mem c hx))

lemma takeWhile_append_run {p : Char → Bool} :
    ∀ (run post : List Char), (∀ c ∈ run, p c = true) →
      (∀ c, post.head? = some c → p c = false) →
      (run ++ post).takeWhile p = run := by
  intro run
  induction run with
  | nil =>
    intro post _ hpost
    cases post with
    | nil => rfl
    | cons c t =>
      have := hpost c rfl
      simp [List.takeWhile_cons, this]
  | cons c t ih =>
    intro post h hpost
    have hc : p c = true := h c (List.mem_cons_self c t)
    simp [List.takeWhile_cons, hc]
    exact ih post (fun x hx => h x (List.mem_cons_of_mem c hx)) hpost

lemma digitRun_spec (s : String) (pre run post : List Char)
    (hs : s.data = pre ++ run ++ post)
    (hpre : ∀ c ∈ pre, c.isDigit = false)
    (hrun : run ≠ []) (hrund : ∀ c ∈ run, c.isDigit = true)
    (hpost : ∀ c, post.head? = some c → c.isDigit = false) :
    digitRun s = run := by
  unfold digitRun
  rw [hs, List.append_assoc]
  rw [dropWhile_append_all pre (run ++ post) (fun c hc => by simp [hpre c hc])]
  obtain ⟨c, t, rfl⟩ := List.exists_cons_of_ne_nil hrun
  have hcd : c.isDigit = true := hrund c (List.mem_cons_self c t)
  rw [List.cons_append, List.dropWhile_cons, if_neg (by simp [hcd])]
  rw [← List.cons_append, takeWhile_append_run (c :: t) post hrund hpost]

/-- C10, counterexample: the first-character extraction `.str[0]` yields a
missing value on the empty (but present) cabin string "", so cabin_cat is
not missing "exactly when cabin is missing". -/
theorem cabin_cat_empty_string_counterexample :
    cabinCat (some "") = none ∧ (some "" : Option String) ≠ none :=
  ⟨rfl, by decide⟩

/-- C10, amended: the cabin extraction is total — cabin_num is missing
exactly when the cabin is missing or has no digit character, and otherwise
equals the leftmost maximal digit run converted to a number; cabin_cat is
missing exactly when the cabin is missing or is the empty string. -/
theorem cabin_extraction_totality (o : Option String) :
    (cabinNum o = none ↔ o = none ∨ ∃ s, o = some s ∧ ∀ c ∈ s.data, c.isDigit = false) ∧
    (∀ s pre run post, o = some s → s.data = pre ++ run ++ post →
      (∀ c ∈ pre, c.isDigit = false) → run ≠ [] → (∀ c ∈ run, c.isDigit = true) →
      (∀ c, post.head? = some c → c.isDigit = false) →
      cabinNum o = some ((digitsToNat run : ℚ))) ∧
    (cabinCat o = none ↔ o = none ∨ o = some "") := by
  cases o with
  | none => simp [cabinNum, cabinCat]
  | some s =>
    refine ⟨?_, ?_, ?_⟩
    · rw [show cabinNum (some s) =
          (if digitRun s = [] then none else some ((digitsToNat (digitRun s) : ℚ))) from rfl]
      constructor
      · intro h
        by_cases hd : digitRun s = []
        · exact Or.inr ⟨s, rfl, fun c hc => by
            have := (runAux_nil_iff s.data).1 hd
            exact this c hc⟩
        · rw [if_neg hd] at h
          exact absurd h (by simp)
      · rintro (h | ⟨s', hs', hall⟩)
        · exact absurd h (by simp)
        · have hss : s' = s := Option.some.inj hs'.symm
          subst hss
          have hd : digitRun s' = [] := (runAux_nil_iff s'.data).2 hall
          rw [if_pos hd]
    · intro s' pre run post hs' hdata hpre hrun hrund hpost
      have hss : s' = s := Option.some.inj hs'.symm
      subst hss
      have := digitRun_spec s' pre run post hdata hpre hrun hrund hpost
      rw [show cabinNum (some s') =
          (if digitRun s' = [] then none else some ((digitsToNat (digitRun s') : ℚ))) from rfl]
      rw [this, if_neg hrun]
    · constructor
      · intro h
        rcases hd : s.data with _ | ⟨c, t⟩
        · right
          congr 1
          apply String.ext
          simp [hd]
        · exfalso
          rw [show cabinCat (some s) = (match s.data with
              | [] => none
              | c :: _ => some (String.mk [c])) from rfl, hd] at h
          exact absurd h (by simp)
      · rintro (h | h)
        · exact absurd h (by simp)
        · have hss : s = "" := Option.some.inj h
          subst hss
          rfl

theorem cabin_extraction_totality_witness :
    cabinNum (some "C85") = some ((digitsToNat ['8', '5'] : ℚ)) :=
  (cabin_extraction_totality (some "C85")).2.1 "C85" ['C'] ['8', '5'] []
    rfl (by decide) (by decide) (by decide) (by decide) (by decide)
